import Mathlib

/-
Shallow embedding of the item-matching engine of the lost-found-pwa server
(Express server, file src/unnamed/part_000).  Text similarity, match
confidence, candidate search and match recording are translated from the
source; JS numbers are modelled as exact rationals and the JS string
split(/\s+/) semantics (including the empty leading/trailing tokens it
produces) is reproduced on lists of characters.
-/

namespace LostFound

/-- JS whitespace test for the regex character class \s, restricted to the
ASCII whitespace characters (space, tab, newline, carriage return, vertical
tab, form feed). -/
def isWs (c : Char) : Bool :=
  c == ' ' || c == '\t' || c == '\n' || c == '\r' || c == '\u000b' || c == '\u000c'

/-- Accumulator loop for JS String.prototype.split with separator /\s+/.
The flag records whether we are inside a whitespace run (so that further
whitespace extends the same separator instead of emitting another empty
token); `cur` holds the current token reversed. -/
def splitAux : Bool → List Char → List Char → List (List Char)
  | _, [], cur => [cur.reverse]
  | skipping, c :: rest, cur =>
    if isWs c then
      if skipping then splitAux true rest []
      else cur.reverse :: splitAux true rest []
    else splitAux false rest (c :: cur)

/-- JS `text.toLowerCase().split(/\s+/)`: lowercase, then split on maximal
whitespace runs; splitting the empty string yields [""], and leading or
trailing whitespace yields an empty first or last token, as in JS. -/
def tokens (text : String) : List String :=
  (splitAux false (text.data.map Char.toLower) []).map String.mk

/-- calculateTextSimilarity from the source: words1.filter(word =>
words2.includes(word)) for the intersection — the FIRST argument's tokens
counted with multiplicity — and new Set([...words1, ...words2]) for the
union.  The quotient is returned as an exact rational. -/
def calculateTextSimilarity (text1 text2 : String) : ℚ :=
  let words1 := tokens text1
  let words2 := tokens text2
  let intersection := words1.filter (fun word => words2.contains word)
  let union := (words1 ++ words2).dedup
  (intersection.length : ℚ) / (union.length : ℚ)

/-- Modelled from the spec: the Jaccard coefficient of the lowercase
whitespace-token SETS of the two strings (duplicates collapsed), written
independently of the source for comparison with calculateTextSimilarity. -/
def jaccardSimilarity (text1 text2 : String) : ℚ :=
  let s1 := (tokens text1).toFinset
  let s2 := (tokens text2).toFinset
  ((s1 ∩ s2).card : ℚ) / ((s1 ∪ s2).card : ℚ)

/-- Unfolding lemma for calculateTextSimilarity, exposing the numerator and
denominator as natural-number lengths. -/
theorem sim_def (a b : String) :
    calculateTextSimilarity a b =
      (((tokens a).filter (fun w => (tokens b).contains w)).length : ℚ) /
        (((tokens a ++ tokens b).dedup).length : ℚ) := rfl

/-- Unfolding lemma for jaccardSimilarity. -/
theorem jaccard_def (a b : String) :
    jaccardSimilarity a b =
      ((((tokens a).toFinset ∩ (tokens b).toFinset).card : ℚ)) /
        ((((tokens a).toFinset ∪ (tokens b).toFinset).card : ℚ)) := rfl

/-- Item record, with the fields the matching engine reads.  The source is
untyped JS: type, category and status are arbitrary strings there, so they
are Strings here. -/
structure Item where
  id : String
  title : String
  description : String
  category : String
  type : String
  location : String
  status : String
deriving DecidableEq

/-- Match record as built by findPotentialMatches. -/
structure MatchRecord where
  id : String
  lostItemId : String
  foundItemId : String
  confidence : ℚ
  status : String
  createdAt : String
  method : String
deriving DecidableEq

/-- The two stores the engine touches, each a JS Map modelled as an
insertion-ordered association list. -/
structure Storage where
  items : List (String × Item)
  «matches» : List (String × MatchRecord)
deriving DecidableEq

/-- JS Map.prototype.set: replace in place when the key is present,
append otherwise. -/
def mapSet {α : Type} (m : List (String × α)) (k : String) (v : α) : List (String × α) :=
  if m.any (fun p => p.1 == k) then m.map (fun p => if p.1 == k then (k, v) else p)
  else m ++ [(k, v)]

/-- JS Map.prototype.values as a list, in insertion order. -/
def mapValues {α : Type} (m : List (String × α)) : List α :=
  m.map Prod.snd

/-- calculateMatchConfidence from the source: 0.3 for equal categories,
plus the three weighted text similarities, clamped by Math.min(·, 1.0). -/
def calculateMatchConfidence (item1 item2 : Item) : ℚ :=
  let c0 : ℚ := 0
  let c1 : ℚ := if item1.category = item2.category then c0 + 0.3 else c0
  let titleSimilarity := calculateTextSimilarity item1.title item2.title
  let c2 := c1 + titleSimilarity * 0.4
  let descSimilarity := calculateTextSimilarity item1.description item2.description
  let c3 := c2 + descSimilarity * 0.2
  let locationSimilarity := calculateTextSimilarity item1.location item2.location
  let c4 := c3 + locationSimilarity * 0.1
  min c4 1

/-- The ternary expression computing the opposite of item.type at the top of
findPotentialMatches. -/
def oppositeType (t : String) : String :=
  if t = "lost" then "found" else "lost"

/-- The filter predicate applied to storage.items.values() inside
findPotentialMatches. -/
def isCandidate (item otherItem : Item) : Bool :=
  decide (otherItem.type = oppositeType item.type ∧
    otherItem.category = item.category ∧ otherItem.status = "active")

/-- Candidate search: the filter over the item store values inside
findPotentialMatches (the spec calls this findCandidates). -/
def findCandidates (item : Item) (items : List Item) : List Item :=
  items.filter (isCandidate item)

/-- The match-record literal built inside the loop of findPotentialMatches,
with the generated id and the timestamp passed in. -/
def mkMatchRecord (matchId now : String) (item cand : Item) : MatchRecord :=
  { id := matchId
    lostItemId := if item.type = "lost" then item.id else cand.id
    foundItemId := if item.type = "found" then item.id else cand.id
    confidence := calculateMatchConfidence item cand
    status := "pending"
    createdAt := now
    method := "ai" }

/-- The for-loop of findPotentialMatches over the candidate list: for each
candidate above the 0.6 threshold, generate an id (the k-th value of the id
supply), store the record with Map.set, and collect it.  Returns the list
of created records and the updated match store. -/
def matchLoop (ids : Nat → String) (now : String) (item : Item) :
    List Item → Nat → List (String × MatchRecord) →
      List MatchRecord × List (String × MatchRecord)
  | [], _, store => ([], store)
  | cand :: rest, k, store =>
    if (0.6 : ℚ) < calculateMatchConfidence item cand then
      let matchRecord := mkMatchRecord (ids k) now item cand
      let res := matchLoop ids now item rest (k + 1) (mapSet store (ids k) matchRecord)
      (matchRecord :: res.1, res.2)
    else
      matchLoop ids now item rest k store

/-- findPotentialMatches from the source.  generateId (timestamp plus
random suffix) is modelled as an id supply ids : Nat → String consumed left
to right, and new Date().toISOString() as the parameter now.  Returns the
list of newly created matches and the updated storage. -/
def findPotentialMatches (ids : Nat → String) (now : String) (item : Item)
    (storage : Storage) : List MatchRecord × Storage :=
  let potentialMatches := findCandidates item (mapValues storage.items)
  let res := matchLoop ids now item potentialMatches 0 storage.«matches»
  (res.1, { items := storage.items, «matches» := res.2 })

/-- Request body of POST /api/items; a missing field is none.  Fields the
engine never reads (dateOccurred, contactInfo, images, ...) are omitted. -/
structure ItemBody where
  title : Option String
  description : Option String
  category : Option String
  type : Option String
  location : Option String
deriving DecidableEq

/-- JS falsiness of an optional string: undefined and the empty string are
falsy, every other string is truthy. -/
def falsy : Option String → Bool
  | none => true
  | some s => s == ""

/-- The POST /api/items handler restricted to what the matching engine can
observe: validate field presence (the literal 400 error message on
failure), build the item with status active, Map.set it into the item
store, then run findPotentialMatches on the updated storage.  The id
supply provides generateId values: ids 0 for the item, ids (n+1) for the
n-th match record. -/
def postItems (ids : Nat → String) (now : String) (body : ItemBody)
    (storage : Storage) : Except String (Item × List MatchRecord × Storage) :=
  if falsy body.title || falsy body.description || falsy body.category ||
      falsy body.type || falsy body.location then
    Except.error "Title, description, category, type, and location are required"
  else
    let itemId := ids 0
    let item : Item :=
      { id := itemId
        title := body.title.getD ""
        description := body.description.getD ""
        category := body.category.getD ""
        type := body.type.getD ""
        location := body.location.getD ""
        status := "active" }
    let storage1 : Storage := { items := mapSet storage.items itemId item
                                «matches» := storage.«matches» }
    let res := findPotentialMatches (fun n => ids (n + 1)) now item storage1
    Except.ok (item, res.1, res.2)

theorem contains_mem (l : List String) (w : String) : l.contains w = true ↔ w ∈ l := by
  simp [List.contains]

theorem splitAux_ne_nil (l : List Char) :
    ∀ (b : Bool) (cur : List Char), splitAux b l cur ≠ [] := by
  induction l with
  | nil => intro b cur; simp [splitAux]
  | cons c rest ih =>
    intro b cur
    simp only [splitAux]
    split
    · split
      · exact ih true []
      · exact List.cons_ne_nil _ _
    · exact ih false (c :: cur)

theorem tokens_ne_nil (s : String) : tokens s ≠ [] := by
  unfold tokens
  intro h
  exact splitAux_ne_nil _ _ _ (List.map_eq_nil_iff.mp h)

theorem union_length_pos (a b : String) : 0 < ((tokens a ++ tokens b).dedup).length := by
  rw [List.length_pos]
  intro h
  rw [List.dedup_eq_nil, List.append_eq_nil] at h
  exact tokens_ne_nil a h.1

theorem sim_nonneg (a b : String) : 0 ≤ calculateTextSimilarity a b := by
  rw [sim_def]; positivity

theorem filter_contains_self (l : List String) : l.filter (fun w => l.contains w) = l :=
  List.filter_eq_self.mpr (fun w hw => (contains_mem l w).mpr hw)

theorem length_dedup_append_self {α : Type} [DecidableEq α] (l : List α) :
    ((l ++ l).dedup).length = l.dedup.length := by
  rw [← List.card_toFinset, ← List.card_toFinset, List.toFinset_append, Finset.union_self]

theorem sim_self_ge_one (a : String) : 1 ≤ calculateTextSimilarity a a := by
  rw [sim_def, filter_contains_self, length_dedup_append_self]
  have h1 : 0 < (tokens a).dedup.length := by
    rw [List.length_pos]
    intro h
    rw [List.dedup_eq_nil] at h
    exact tokens_ne_nil a h
  have h2 : (tokens a).dedup.length ≤ (tokens a).length := (List.dedup_sublist _).length_le
  rw [one_le_div (by exact_mod_cast h1)]
  exact_mod_cast h2

theorem sim_self_eq_one_of_nodup (a : String) (h : (tokens a).Nodup) :
    calculateTextSimilarity a a = 1 := by
  rw [sim_def, filter_contains_self, length_dedup_append_self, h.dedup]
  have hlen : (tokens a).length ≠ 0 := by
    simpa using List.length_pos.mpr (tokens_ne_nil a) |>.ne'
  exact div_self (Nat.cast_ne_zero.mpr hlen)

theorem sim_eq_jaccard_of_nodup (a b : String) (h : (tokens a).Nodup) :
    calculateTextSimilarity a b = jaccardSimilarity a b := by
  rw [sim_def, jaccard_def]
  have hnum : ((tokens a).filter (fun w => (tokens b).contains w)).length =
      ((tokens a).toFinset ∩ (tokens b).toFinset).card := by
    have hn : ((tokens a).filter (fun w => (tokens b).contains w)).Nodup := h.filter _
    rw [← List.toFinset_card_of_nodup hn]
    congr 1
    ext w
    simp [List.mem_filter, contains_mem]
  have hden : ((tokens a ++ tokens b).dedup).length =
      ((tokens a).toFinset ∪ (tokens b).toFinset).card := by
    rw [← List.card_toFinset, List.toFinset_append]
  rw [hnum, hden]

theorem jaccard_comm (a b : String) : jaccardSimilarity a b = jaccardSimilarity b a := by
  rw [jaccard_def, jaccard_def, Finset.inter_comm, Finset.union_comm]

theorem jaccard_nonneg (a b : String) : 0 ≤ jaccardSimilarity a b := by
  rw [jaccard_def]; positivity

theorem jaccard_le_one (a b : String) : jaccardSimilarity a b ≤ 1 := by
  rw [jaccard_def]
  rcases Nat.eq_zero_or_pos ((tokens a).toFinset ∪ (tokens b).toFinset).card with h | h
  · rw [h]; simp
  · rw [div_le_one (by exact_mod_cast h)]
    exact_mod_cast Finset.card_le_card Finset.inter_subset_union

theorem sim_dup_left : calculateTextSimilarity "a a" "a" = 2 := by
  rw [sim_def]
  have h1 : ((tokens "a a").filter (fun w => (tokens "a").contains w)).length = 2 := by decide
  have h2 : ((tokens "a a" ++ tokens "a").dedup).length = 1 := by decide
  rw [h1, h2]; norm_num

theorem sim_dup_right : calculateTextSimilarity "a" "a a" = 1 := by
  rw [sim_def]
  have h1 : ((tokens "a").filter (fun w => (tokens "a a").contains w)).length = 1 := by decide
  have h2 : ((tokens "a" ++ tokens "a a").dedup).length = 1 := by decide
  rw [h1, h2]; norm_num

theorem sim_dup_self : calculateTextSimilarity "a a" "a a" = 2 := by
  rw [sim_def]
  have h1 : ((tokens "a a").filter (fun w => (tokens "a a").contains w)).length = 2 := by decide
  have h2 : ((tokens "a a" ++ tokens "a a").dedup).length = 1 := by decide
  rw [h1, h2]; norm_num

theorem jaccard_dup_left : jaccardSimilarity "a a" "a" = 1 := by
  rw [jaccard_def]
  have h1 : (((tokens "a a").toFinset ∩ (tokens "a").toFinset).card) = 1 := by decide
  have h2 : (((tokens "a a").toFinset ∪ (tokens "a").toFinset).card) = 1 := by decide
  rw [h1, h2]; norm_num

theorem conf_def (item1 item2 : Item) : calculateMatchConfidence item1 item2 =
    min ((if item1.category = item2.category then (0 : ℚ) + 0.3 else 0) +
      calculateTextSimilarity item1.title item2.title * 0.4 +
      calculateTextSimilarity item1.description item2.description * 0.2 +
      calculateTextSimilarity item1.location item2.location * 0.1) 1 := rfl

theorem conf_le_one (item1 item2 : Item) : calculateMatchConfidence item1 item2 ≤ 1 := by
  rw [conf_def]; exact min_le_right _ _

theorem conf_nonneg (item1 item2 : Item) : 0 ≤ calculateMatchConfidence item1 item2 := by
  rw [conf_def]
  have t1 := sim_nonneg item1.title item2.title
  have t2 := sim_nonneg item1.description item2.description
  have t3 := sim_nonneg item1.location item2.location
  have hc : (0 : ℚ) ≤ (if item1.category = item2.category then (0 : ℚ) + 0.3 else 0) := by
    split <;> norm_num
  refine le_min ?_ (by norm_num)
  linarith

theorem conf_eq_one_of_fields_eq (item1 item2 : Item) (hc : item1.category = item2.category)
    (ht : item1.title = item2.title) (hd : item1.description = item2.description)
    (hl : item1.location = item2.location) : calculateMatchConfidence item1 item2 = 1 := by
  rw [conf_def, ht, hd, hl, if_pos hc]
  have t1 := sim_self_ge_one item2.title
  have t2 := sim_self_ge_one item2.description
  have t3 := sim_self_ge_one item2.location
  apply min_eq_right
  linarith

theorem mem_findCandidates {item o : Item} {items : List Item} :
    o ∈ findCandidates item items ↔ o ∈ items ∧ o.type = oppositeType item.type ∧
      o.category = item.category ∧ o.status = "active" := by
  simp [findCandidates, isCandidate, List.mem_filter]

theorem oppositeType_ne (t : String) : oppositeType t ≠ t := by
  unfold oppositeType
  split
  · next h => rw [h]; decide
  · next h => exact fun e => h e.symm

theorem oppositeType_lost : oppositeType "lost" = "found" := rfl

theorem oppositeType_found : oppositeType "found" = "lost" := rfl

theorem mapSet_mem {α : Type} (m : List (String × α)) (k : String) (v : α) :
    ∀ p ∈ mapSet m k v, p ∈ m ∨ p = (k, v) := by
  intro p hp
  unfold mapSet at hp
  split at hp
  · rcases List.mem_map.mp hp with ⟨q, hq, hqe⟩
    by_cases hk : q.1 == k
    · right; rw [if_pos hk] at hqe; exact hqe.symm
    · left; rw [if_neg hk] at hqe; exact hqe ▸ hq
  · rcases List.mem_append.mp hp with h | h
    · exact Or.inl h
    · exact Or.inr (List.mem_singleton.mp h)

theorem mapSet_not_mem {α : Type} (m : List (String × α)) (k : String) (v : α)
    (h : k ∉ m.map Prod.fst) : mapSet m k v = m ++ [(k, v)] := by
  unfold mapSet
  rw [if_neg]
  simp only [List.any_eq_true, beq_iff_eq, not_exists]
  intro p hp
  exact h (List.mem_map.mpr ⟨p, hp.1, hp.2⟩)

theorem matchLoop_fst_mem (ids : Nat → String) (now : String) (item : Item) :
    ∀ (cands : List Item) (k : Nat) (store : List (String × MatchRecord))
      (r : MatchRecord), r ∈ (matchLoop ids now item cands k store).1 →
      ∃ cand ∈ cands, (0.6 : ℚ) < calculateMatchConfidence item cand ∧
        ∃ mid, r = mkMatchRecord mid now item cand := by
  intro cands
  induction cands with
  | nil => intro k store r h; simp [matchLoop] at h
  | cons cand rest ih =>
    intro k store r h
    simp only [matchLoop] at h
    split at h
    · next hconf =>
      simp only [List.mem_cons] at h
      rcases h with h | h
      · exact ⟨cand, List.mem_cons_self _ _, hconf, ids k, h⟩
      · rcases ih _ _ r h with ⟨c, hc, hcc, mid, hr⟩
        exact ⟨c, List.mem_cons_of_mem _ hc, hcc, mid, hr⟩
    · rcases ih _ _ r h with ⟨c, hc, hcc, mid, hr⟩
      exact ⟨c, List.mem_cons_of_mem _ hc, hcc, mid, hr⟩

theorem matchLoop_fst_complete (ids : Nat → String) (now : String) (item : Item) :
    ∀ (cands : List Item) (k : Nat) (store : List (String × MatchRecord))
      (cand : Item), cand ∈ cands → (0.6 : ℚ) < calculateMatchConfidence item cand →
      ∃ r ∈ (matchLoop ids now item cands k store).1,
        ∃ mid, r = mkMatchRecord mid now item cand := by
  intro cands
  induction cands with
  | nil => intro k store cand h; exact absurd h (List.not_mem_nil _)
  | cons c rest ih =>
    intro k store cand hmem hconf
    simp only [matchLoop]
    rcases List.mem_cons.mp hmem with h | h
    · subst h
      rw [if_pos hconf]
      exact ⟨mkMatchRecord (ids k) now item cand, List.mem_cons_self _ _, ids k, rfl⟩
    · split
      · rcases ih (k + 1) (mapSet store (ids k) (mkMatchRecord (ids k) now item c))
            cand h hconf with ⟨r, hr, hmid⟩
        exact ⟨r, List.mem_cons_of_mem _ hr, hmid⟩
      · exact ih k store cand h hconf

theorem matchLoop_length (ids : Nat → String) (now : String) (item : Item) :
    ∀ (cands : List Item) (k : Nat) (store : List (String × MatchRecord)),
      (matchLoop ids now item cands k store).1.length =
        (cands.filter
          (fun c => decide ((0.6 : ℚ) < calculateMatchConfidence item c))).length := by
  intro cands
  induction cands with
  | nil => intro k store; simp [matchLoop]
  | cons cand rest ih =>
    intro k store
    by_cases hconf : (0.6 : ℚ) < calculateMatchConfidence item cand
    · simp [matchLoop, if_pos hconf, List.filter_cons, hconf, ih]
    · simp [matchLoop, if_neg hconf, List.filter_cons, hconf, ih]

theorem matchLoop_store_mem (ids : Nat → String) (now : String) (item : Item) :
    ∀ (cands : List Item) (k : Nat) (store : List (String × MatchRecord))
      (p : String × MatchRecord), p ∈ (matchLoop ids now item cands k store).2 →
      p ∈ store ∨ ∃ cand ∈ cands, (0.6 : ℚ) < calculateMatchConfidence item cand ∧
        ∃ mid, p = (mid, mkMatchRecord mid now item cand) := by
  intro cands
  induction cands with
  | nil => intro k store p h; exact Or.inl (by simpa [matchLoop] using h)
  | cons cand rest ih =>
    intro k store p h
    simp only [matchLoop] at h
    split at h
    · next hconf =>
      rcases ih _ _ p h with hs | ⟨c, hc, hcc, mid, hp⟩
      · rcases mapSet_mem _ _ _ p hs with hs | hs
        · exact Or.inl hs
        · exact Or.inr ⟨cand, List.mem_cons_self _ _, hconf, ids k, hs⟩
      · exact Or.inr ⟨c, List.mem_cons_of_mem _ hc, hcc, mid, hp⟩
    · rcases ih _ _ p h with hs | ⟨c, hc, hcc, mid, hp⟩
      · exact Or.inl hs
      · exact Or.inr ⟨c, List.mem_cons_of_mem _ hc, hcc, mid, hp⟩

theorem matchLoop_store_eq (ids : Nat → String) (now : String) (item : Item)
    (hinj : Function.Injective ids) :
    ∀ (cands : List Item) (k : Nat) (store : List (String × MatchRecord)),
      (∀ n, k ≤ n → ids n ∉ store.map Prod.fst) →
      (matchLoop ids now item cands k store).2 =
        store ++ ((matchLoop ids now item cands k store).1).map (fun r => (r.id, r)) := by
  intro cands
  induction cands with
  | nil => intro k store hfresh; simp [matchLoop]
  | cons cand rest ih =>
    intro k store hfresh
    simp only [matchLoop]
    split
    · next hconf =>
      have hfresh2 : ∀ n, k + 1 ≤ n →
          ids n ∉ (store ++ [(ids k, mkMatchRecord (ids k) now item cand)]).map Prod.fst := by
        intro n hn
        simp only [List.map_append, List.mem_append, List.map_cons, List.map_nil,
          List.mem_singleton, not_or]
        exact ⟨hfresh n (Nat.le_of_succ_le hn), hinj.ne (by omega)⟩
      dsimp only
      rw [mapSet_not_mem _ _ _ (hfresh k le_rfl), ih (k + 1) _ hfresh2]
      simp [mkMatchRecord, List.append_assoc]
    · exact ih k store hfresh

/-- Concrete lost item used for witnesses. -/
def itemLW : Item :=
  { id := "idL", title := "black iphone", description := "cracked screen",
    category := "electronics", type := "lost", location := "library", status := "active" }

/-- Concrete found item with the same text fields, used for witnesses. -/
def itemFW : Item :=
  { id := "idF", title := "black iphone", description := "cracked screen",
    category := "electronics", type := "found", location := "library", status := "active" }

/-- Witness storage: one active found item, no matches yet. -/
def storageW : Storage := { items := [("idF", itemFW)], «matches» := [] }

/-- Injective id supply used for witnesses. -/
def idsW : Nat → String := fun n => String.mk (List.replicate n 'a')

theorem idsW_injective : Function.Injective idsW := by
  intro m n h
  have h2 := congrArg (fun s => s.data.length) h
  simpa [idsW] using h2

/-- Item with a type that is neither lost nor found; the POST handler only
validates presence of the type field, so such an item can reach the engine. -/
def itemBad : Item :=
  { id := "i1", title := "x", description := "x", category := "c",
    type := "banana", location := "x", status := "active" }

/-- Stored active lost item with the same category and texts as itemBad. -/
def candBad : Item :=
  { id := "i2", title := "x", description := "x", category := "c",
    type := "lost", location := "x", status := "active" }

def storageBad : Storage := { items := [("i2", candBad)], «matches» := [] }

/-- Evaluation helper: a run whose candidate list is a single item above the
threshold creates exactly one record. -/
theorem findPotentialMatches_singleton (ids : Nat → String) (now : String)
    (item c : Item) (storage : Storage)
    (hc : findCandidates item (mapValues storage.items) = [c])
    (hconf : (0.6 : ℚ) < calculateMatchConfidence item c) :
    (findPotentialMatches ids now item storage).1 = [mkMatchRecord (ids 0) now item c] := by
  simp only [findPotentialMatches, hc, matchLoop, if_pos hconf]

/-- C1 (amended): when the first argument's lowercase whitespace-token list is
duplicate-free, calculateTextSimilarity a b equals the Jaccard coefficient of
the token sets of a and b and lies in [0,1].  (As stated over all strings the
claim fails: the source counts the first argument's tokens with multiplicity,
see the counterexample.) -/
theorem c1_similarity_jaccard (a b : String) (h : (tokens a).Nodup) :
    calculateTextSimilarity a b = jaccardSimilarity a b ∧
      0 ≤ calculateTextSimilarity a b ∧ calculateTextSimilarity a b ≤ 1 := by
  refine ⟨sim_eq_jaccard_of_nodup a b h, sim_nonneg a b, ?_⟩
  rw [sim_eq_jaccard_of_nodup a b h]
  exact jaccard_le_one a b

theorem c1_witness :
    calculateTextSimilarity "red backpack" "blue backpack" =
        jaccardSimilarity "red backpack" "blue backpack" ∧
      0 ≤ calculateTextSimilarity "red backpack" "blue backpack" ∧
      calculateTextSimilarity "red backpack" "blue backpack" ≤ 1 :=
  c1_similarity_jaccard "red backpack" "blue backpack" (by decide)

/-- C1 counterexample: on "a a" versus "a" the source returns 2, which is
neither the Jaccard coefficient (1) nor within [0,1]. -/
theorem c1_counterexample :
    ¬(calculateTextSimilarity "a a" "a" = jaccardSimilarity "a a" "a" ∧
      calculateTextSimilarity "a a" "a" ≤ 1) := by
  intro hc
  rw [sim_dup_left] at hc
  exact absurd hc.2 (by norm_num)

/-- C2 (amended): calculateTextSimilarity is symmetric whenever both
arguments' token lists are duplicate-free.  (As stated over all strings the
claim fails, see the counterexample.) -/
theorem c2_similarity_symm (a b : String) (ha : (tokens a).Nodup)
    (hb : (tokens b).Nodup) :
    calculateTextSimilarity a b = calculateTextSimilarity b a := by
  rw [sim_eq_jaccard_of_nodup a b ha, sim_eq_jaccard_of_nodup b a hb, jaccard_comm]

theorem c2_witness :
    calculateTextSimilarity "red backpack" "blue bag" =
      calculateTextSimilarity "blue bag" "red backpack" :=
  c2_similarity_symm "red backpack" "blue bag" (by decide) (by decide)

/-- C2 counterexample: similarity("a a", "a") = 2 but similarity("a", "a a")
= 1, so the function is not symmetric. -/
theorem c2_counterexample :
    calculateTextSimilarity "a a" "a" ≠ calculateTextSimilarity "a" "a a" := by
  rw [sim_dup_left, sim_dup_right]
  norm_num

/-- C5: candidate search returns exactly the stored items of the opposite
type, equal category and active status, and never an item of the query's own
type or a non-active item. -/
theorem c5_candidate_search (item : Item) (items : List Item) :
    (∀ o, o ∈ findCandidates item items ↔
      o ∈ items ∧ o.type = oppositeType item.type ∧ o.category = item.category ∧
        o.status = "active") ∧
    ∀ o ∈ findCandidates item items, o.type ≠ item.type ∧ o.status = "active" := by
  refine ⟨fun o => mem_findCandidates, fun o ho => ?_⟩
  rcases mem_findCandidates.mp ho with ⟨-, htype, -, hstatus⟩
  refine ⟨?_, hstatus⟩
  rw [htype]
  exact oppositeType_ne item.type

theorem c5_witness : itemFW.type ≠ itemLW.type ∧ itemFW.status = "active" :=
  (c5_candidate_search itemLW [itemFW]).2 itemFW (by decide)

/-- C7: a POST /api/items body with a missing (or empty, hence falsy) title,
description, category or type is rejected with the 400 error before any item
is created or any scoring runs: the handler returns the error and nothing
else. -/
theorem c7_invalid_item (ids : Nat → String) (now : String) (body : ItemBody)
    (storage : Storage)
    (h : falsy body.title = true ∨ falsy body.description = true ∨
      falsy body.category = true ∨ falsy body.type = true) :
    postItems ids now body storage =
      Except.error "Title, description, category, type, and location are required" := by
  unfold postItems
  rw [if_pos]
  rcases h with h | h | h | h <;> simp [h]

/-- Body with the category field absent. -/
def bodyNoCategory : ItemBody :=
  { title := some "wallet", description := some "left in cafe", category := none,
    type := some "lost", location := some "downtown" }

theorem c7_witness :
    postItems (fun _ => "id0") "2024-01-01" bodyNoCategory
        { items := [], «matches» := [] } =
      Except.error "Title, description, category, type, and location are required" :=
  c7_invalid_item _ _ _ _ (Or.inr (Or.inr (Or.inl (by decide))))

/-- C8 (amended): similarity(a, a) = 1 for every string whose token list is
duplicate-free; a repeated token makes the value exceed 1 (see the
counterexample). -/
theorem c8_similarity_self (a : String) (h : (tokens a).Nodup) :
    calculateTextSimilarity a a = 1 :=
  sim_self_eq_one_of_nodup a h

theorem c8_witness : calculateTextSimilarity "red backpack" "red backpack" = 1 :=
  c8_similarity_self "red backpack" (by decide)

/-- C8 counterexample: "a a" tokenizes to the non-empty token set {"a"}, yet
similarity("a a", "a a") = 2, not 1. -/
theorem c8_counterexample :
    tokens "a a" ≠ [] ∧ calculateTextSimilarity "a a" "a a" ≠ 1 := by
  refine ⟨by decide, ?_⟩
  rw [sim_dup_self]
  norm_num

/-- C10: the similarity function is total — splitting always yields at least
one token, the union in the denominator is never empty — and on two empty
strings it returns 1 (not the spec-recommended 0). -/
theorem c10_similarity_total (a b : String) :
    tokens a ≠ [] ∧ 0 < ((tokens a ++ tokens b).dedup).length ∧
      tokens "" = [""] ∧ calculateTextSimilarity "" "" = 1 := by
  refine ⟨tokens_ne_nil a, union_length_pos a b, by decide, ?_⟩
  rw [sim_def]
  have h1 : ((tokens "").filter (fun w => (tokens "").contains w)).length = 1 := by decide
  have h2 : ((tokens "" ++ tokens "").dedup).length = 1 := by decide
  rw [h1, h2]
  norm_num

/-- C4: for a new item of type lost or found, a record is created for a
candidate exactly when the confidence exceeds 0.6 (first two conjuncts give
the two directions, the third pins the count), and every created record
carries status pending, method ai, the computed confidence, and the lost/
found item ids assigned to whichever of the pair has that type. -/
theorem c4_match_recorder (ids : Nat → String) (now : String) (item : Item)
    (storage : Storage) (htype : item.type = "lost" ∨ item.type = "found") :
    (∀ r ∈ (findPotentialMatches ids now item storage).1,
      r.status = "pending" ∧ r.method = "ai" ∧
      ∃ cand ∈ findCandidates item (mapValues storage.items),
        (0.6 : ℚ) < calculateMatchConfidence item cand ∧
        r.confidence = calculateMatchConfidence item cand ∧
        ((r.lostItemId = item.id ∧ item.type = "lost") ∨
          (r.lostItemId = cand.id ∧ cand.type = "lost")) ∧
        ((r.foundItemId = item.id ∧ item.type = "found") ∨
          (r.foundItemId = cand.id ∧ cand.type = "found"))) ∧
    (∀ cand ∈ findCandidates item (mapValues storage.items),
      (0.6 : ℚ) < calculateMatchConfidence item cand →
      ∃ r ∈ (findPotentialMatches ids now item storage).1,
        r.confidence = calculateMatchConfidence item cand ∧ r.status = "pending" ∧
          r.method = "ai") ∧
    (findPotentialMatches ids now item storage).1.length =
      ((findCandidates item (mapValues storage.items)).filter
        (fun c => decide ((0.6 : ℚ) < calculateMatchConfidence item c))).length := by
  have hfst : (findPotentialMatches ids now item storage).1 =
      (matchLoop ids now item (findCandidates item (mapValues storage.items)) 0
        storage.«matches»).1 := rfl
  refine ⟨?_, ?_, ?_⟩
  · intro r hr
    rw [hfst] at hr
    rcases matchLoop_fst_mem ids now item _ _ _ r hr with ⟨cand, hcand, hconf, mid, rfl⟩
    have htypeC := (mem_findCandidates.mp hcand).2.1
    refine ⟨rfl, rfl, cand, hcand, hconf, rfl, ?_, ?_⟩
    · rcases htype with hL | hF
      · exact Or.inl ⟨by simp [mkMatchRecord, hL], hL⟩
      · refine Or.inr ⟨?_, ?_⟩
        · simp [mkMatchRecord, hF]
        · rw [htypeC, hF]
          rfl
    · rcases htype with hL | hF
      · refine Or.inr ⟨?_, ?_⟩
        · simp [mkMatchRecord, hL]
        · rw [htypeC, hL]
          rfl
      · exact Or.inl ⟨by simp [mkMatchRecord, hF], hF⟩
  · intro cand hcand hconf
    rw [hfst]
    rcases matchLoop_fst_complete ids now item _ 0 storage.«matches» cand hcand hconf with
      ⟨r, hr, mid, rfl⟩
    exact ⟨_, hr, rfl, rfl, rfl⟩
  · rw [hfst]
    exact matchLoop_length ids now item _ 0 _

theorem c4_witness :
    (findPotentialMatches idsW "2024-01-01" itemLW storageW).1.length =
      ((findCandidates itemLW (mapValues storageW.items)).filter
        (fun c => decide ((0.6 : ℚ) < calculateMatchConfidence itemLW c))).length :=
  (c4_match_recorder idsW "2024-01-01" itemLW storageW (Or.inl rfl)).2.2

/-- Record-level invariant for a created record, assuming the new item is
typed lost or found and the candidate has a distinct id. -/
theorem mkRecord_invariant (mid now : String) (item cand : Item)
    (htype : item.type = "lost" ∨ item.type = "found")
    (hne : cand.id ≠ item.id) :
    (mkMatchRecord mid now item cand).lostItemId ≠
        (mkMatchRecord mid now item cand).foundItemId ∧
      0 ≤ (mkMatchRecord mid now item cand).confidence ∧
      (mkMatchRecord mid now item cand).confidence ≤ 1 := by
  refine ⟨?_, conf_nonneg item cand, conf_le_one item cand⟩
  rcases htype with hL | hF
  · simp only [mkMatchRecord, hL]
    simp
    exact fun e => hne e.symm
  · simp only [mkMatchRecord, hF]
    simp
    exact hne

/-- C6 (amended): for a matching run whose new item is typed lost or found
and whose candidates all have ids distinct from the new item's id (the data
model's unique-id guarantee), every created record pairs a lost item with a
found item of equal category, never pairs an item with itself, and carries a
confidence in [0,1]; and the record-level invariant is preserved on the whole
match store.  (As stated over arbitrary runs the claim fails because the
handler never validates the type string, see the counterexample.) -/
theorem c6_match_invariant (ids : Nat → String) (now : String) (item : Item)
    (storage : Storage) (htype : item.type = "lost" ∨ item.type = "found")
    (hid : ∀ cand ∈ findCandidates item (mapValues storage.items), cand.id ≠ item.id) :
    (∀ r ∈ (findPotentialMatches ids now item storage).1,
      r.lostItemId ≠ r.foundItemId ∧ 0 ≤ r.confidence ∧ r.confidence ≤ 1 ∧
      ∃ cand ∈ findCandidates item (mapValues storage.items),
        cand.category = item.category ∧
        ((item.type = "lost" ∧ cand.type = "found" ∧
            r.lostItemId = item.id ∧ r.foundItemId = cand.id) ∨
          (item.type = "found" ∧ cand.type = "lost" ∧
            r.lostItemId = cand.id ∧ r.foundItemId = item.id))) ∧
    ((∀ p ∈ storage.«matches»,
        p.2.lostItemId ≠ p.2.foundItemId ∧ 0 ≤ p.2.confidence ∧ p.2.confidence ≤ 1) →
      ∀ p ∈ (findPotentialMatches ids now item storage).2.«matches»,
        p.2.lostItemId ≠ p.2.foundItemId ∧ 0 ≤ p.2.confidence ∧ p.2.confidence ≤ 1) := by
  constructor
  · intro r hr
    have hr2 : r ∈ (matchLoop ids now item
        (findCandidates item (mapValues storage.items)) 0 storage.«matches»).1 := hr
    rcases matchLoop_fst_mem ids now item _ _ _ r hr2 with ⟨cand, hcand, hconf, mid, rfl⟩
    have hmk := mkRecord_invariant mid now item cand htype (hid cand hcand)
    have hmem := mem_findCandidates.mp hcand
    refine ⟨hmk.1, hmk.2.1, hmk.2.2, cand, hcand, hmem.2.2.1, ?_⟩
    rcases htype with hL | hF
    · refine Or.inl ⟨hL, ?_, ?_, ?_⟩
      · rw [hmem.2.1, hL]
        rfl
      · simp [mkMatchRecord, hL]
      · simp [mkMatchRecord, hL]
    · refine Or.inr ⟨hF, ?_, ?_, ?_⟩
      · rw [hmem.2.1, hF]
        rfl
      · simp [mkMatchRecord, hF]
      · simp [mkMatchRecord, hF]
  · intro hstore p hp
    have hp2 : p ∈ (matchLoop ids now item
        (findCandidates item (mapValues storage.items)) 0 storage.«matches»).2 := hp
    rcases matchLoop_store_mem ids now item _ _ _ p hp2 with hs | ⟨cand, hcand, hconf, mid, rfl⟩
    · exact hstore p hs
    · exact mkRecord_invariant mid now item cand htype (hid cand hcand)

theorem c6_witness :
    (mkMatchRecord (idsW 0) "2024-01-01" itemLW itemFW).lostItemId ≠
        (mkMatchRecord (idsW 0) "2024-01-01" itemLW itemFW).foundItemId ∧
      0 ≤ (mkMatchRecord (idsW 0) "2024-01-01" itemLW itemFW).confidence ∧
      (mkMatchRecord (idsW 0) "2024-01-01" itemLW itemFW).confidence ≤ 1 := by
  have hcands : findCandidates itemLW (mapValues storageW.items) = [itemFW] := by decide
  have hconf : (0.6 : ℚ) < calculateMatchConfidence itemLW itemFW := by
    rw [conf_eq_one_of_fields_eq itemLW itemFW rfl rfl rfl rfl]
    norm_num
  have hmem : mkMatchRecord (idsW 0) "2024-01-01" itemLW itemFW ∈
      (findPotentialMatches idsW "2024-01-01" itemLW storageW).1 := by
    rw [findPotentialMatches_singleton _ _ _ _ _ hcands hconf]
    exact List.mem_singleton_self _
  have h := (c6_match_invariant idsW "2024-01-01" itemLW storageW (Or.inl rfl)
    (by decide)).1 _ hmem
  exact ⟨h.1, h.2.1, h.2.2.1⟩

/-- C6 counterexample: the handler accepts an item typed "banana"; matching
it against a stored lost item of the same category creates a record whose
lostItemId and foundItemId are both the candidate's id — the record
references a single item, so the opposite-types and no-self-match invariants
fail. -/
theorem c6_counterexample :
    ∃ r ∈ (findPotentialMatches (fun _ => "m0") "t0" itemBad storageBad).1,
      r.lostItemId = r.foundItemId := by
  have hcands : findCandidates itemBad (mapValues storageBad.items) = [candBad] := by decide
  have hconf : (0.6 : ℚ) < calculateMatchConfidence itemBad candBad := by
    rw [conf_eq_one_of_fields_eq itemBad candBad rfl rfl rfl rfl]
    norm_num
  rw [findPotentialMatches_singleton _ _ _ _ _ hcands hconf]
  exact ⟨_, List.mem_singleton_self _, rfl⟩

/-- C9: a matching run never touches the item store and only appends to the
match store — every pre-existing match entry survives unchanged, in place.
The hypotheses say the generated ids are pairwise distinct and fresh, which
is the data model's unique-opaque-id guarantee for generateId. -/
theorem c9_append_only (ids : Nat → String) (now : String) (item : Item)
    (storage : Storage) (hinj : Function.Injective ids)
    (hfresh : ∀ n, ids n ∉ storage.«matches».map Prod.fst) :
    (findPotentialMatches ids now item storage).2.items = storage.items ∧
    (findPotentialMatches ids now item storage).2.«matches» =
      storage.«matches» ++
        ((findPotentialMatches ids now item storage).1).map (fun r => (r.id, r)) := by
  refine ⟨rfl, ?_⟩
  exact matchLoop_store_eq ids now item hinj _ 0 _ (fun n _ => hfresh n)

theorem c9_witness :
    (findPotentialMatches idsW "2024-01-01" itemLW storageW).2.items =
      storageW.items :=
  (c9_append_only idsW "2024-01-01" itemLW storageW idsW_injective
    (fun n => by simp [storageW])).1

end LostFound
